import Mathlib

/-!
# magicDB: the MongoDB connection pool of `mongo.go`

A shallow embedding of `mongoClient` and `MongoDB` (package `magicDB`) and the
properties of the pool protocol: acquisition (`getClient`), release
(`freeClient`), pre-warming (`Init`), draining (`Close`) and the facade
operations that borrow a connection.

Conventions of the embedding.

* Go's `int` is `Int`: `size` moves by one per call and never comes near the
  64-bit limits, so no wrap-around is modelled.
* A `*mongo.Client` / `*mongo.Database` is `Option Nat` (`none` is `nil`).
* `cs []*mongoClient` is a list of client records.  `getClient` and `freeClient`
  are unexported and every caller in the package releases exactly the pointer it
  was handed, so the slice never holds `nil` or the same pointer twice; the
  pointees are therefore kept by value.
* `sync.Mutex` is the flag `mx`.  A function is run by one goroutine to its end:
  `Lock` on a held mutex never comes back (`Outcome.blocked`).
* Calls into the MongoDB driver are recorded in a log of `Event`s and take their
  results from the parameters `Env`, `Reply` and `Driver`.
-/

set_option linter.unusedVariables false

namespace MagicDB

/-- How a call of a function of the package ends: it returns a value, it panics,
or it blocks forever on `slf.mx.Lock()`. -/
inductive Outcome (α : Type) where
  | ret (a : α)
  | panic (msg : String)
  | blocked
  deriving DecidableEq, Repr

/-- How a call that takes no lock ends (a call into the driver, `close`,
`util.AssertEmpty`): it returns a value or it panics. -/
inductive Reply (γ : Type) where
  | returns (g : γ)
  | panics (msg : String)
  deriving DecidableEq, Repr

/-- A driver result of the shape `(r, err)`: a value, or a non-nil error. -/
inductive Answer (ρ : Type) where
  | ok (r : ρ)
  | err (e : String)
  deriving DecidableEq, Repr

/-- The run-time panic of Go for a nil dereference. -/
def nilDeref : String := "runtime error: invalid memory address or nil pointer dereference"

/-- What the driver does when a method of `*mongo.Client` is invoked through a nil
receiver.  Go enters the method; whether it then returns is up to the driver, so
both answers are parameters (`true`: the call returns, `false`: it panics). -/
structure Driver where
  nilDisconnect : Bool
  nilPing : Bool
  deriving DecidableEq, Repr

/-- Calls into the driver (and `time.Sleep`), in the order they are made. -/
inductive Event where
  | Connect
  | Disconnect (recv : Option Nat)
  | Ping (recv : Option Nat)
  | Sleep
  deriving DecidableEq, Repr

/-- What the driver answers during one call of `getClient` (or one iteration of
`Init`): the result of `mongo.Connect`, of `client.Database(dbName)` and the
error of `Ping` (`none` is a nil error). -/
structure Env where
  connect : Answer Nat
  database : Option Nat
  ping : Option String
  deriving DecidableEq, Repr

/-- The struct `mongoClient`. -/
structure mongoClient where
  c : Option Nat
  db : Option Nat
  timeSec : Int
  deriving DecidableEq, Repr

/-- Modelled from the spec: the deployment record `MongoDeplay`, whose declaration
is not in `mongo.go`; the fields are the ones `mongo.go` reads (hosts, URI,
database name, pool-size hints for the driver, socket timeout, operation
timeout, heartbeat interval, idle timeout). -/
structure MongoDeplay where
  Host : List String
  URI : String
  DBName : String
  MaxPoolSize : Int
  MinPoolSize : Int
  SocketTimeout : Int
  TimeOut : Int
  HeartbeatInterval : Int
  IdleTime : Int
  deriving DecidableEq, Repr

/-- The struct `MongoDB`; `mx` is true while the mutex is held. -/
structure MongoDB where
  cs : List mongoClient
  size : Int
  mx : Bool
  Deplay : MongoDeplay
  MinClient : Int
  MaxClient : Int
  deriving DecidableEq, Repr

/-- A call's final pool state, its outcome and the driver calls it made. -/
structure Res (α : Type) where
  pool : MongoDB
  out : Outcome α
  log : List Event

/-- The zero value `&mongoClient{}`. -/
def mongoClient.zero : mongoClient := { c := none, db := none, timeSec := 0 }

/-- `Client.Disconnect` through the receiver `recv`; its error is discarded by
every caller, so only whether it returns is kept. -/
def Disconnect (drv : Driver) (recv : Option Nat) : Reply Unit :=
  match recv with
  | some _ => .returns ()
  | none => if drv.nilDisconnect then .returns () else .panics nilDeref

/-- `Client.Ping` through the receiver `recv`; `answer` is the error the server
round trip yields. -/
def Ping (drv : Driver) (recv : Option Nat) (answer : Option String) : Reply (Option String) :=
  match recv with
  | some _ => .returns answer
  | none => if drv.nilPing then .returns answer else .panics nilDeref

/-- `mongoClient.connect`: returns the updated struct, the error and the log. -/
def mongoClient.connect (slf : mongoClient) (host : List String) (uri : String)
    (dbName : String) (poolMax poolMin socketTimeSec timeSec hbSec idleSec : Int)
    (env : Env) : mongoClient × Option String × List Event :=
  let slf := { slf with timeSec := timeSec }
  match env.connect with
  | .err e => (slf, some e, [Event.Connect])
  | .ok client =>
    let slf := { slf with db := env.database }
    if slf.db = none then
      (slf, some ("mongoDB Database " ++ dbName ++ " does not exist"),
        [Event.Connect, Event.Disconnect (some client)])
    else
      ({ slf with c := some client }, none, [Event.Connect])

/-- `mongoClient.close`. -/
def mongoClient.close (drv : Driver) (slf : mongoClient) : Reply mongoClient × List Event :=
  match Disconnect drv slf.c with
  | .panics msg => (.panics msg, [Event.Disconnect slf.c])
  | .returns _ => (.returns { slf with c := none, db := none }, [Event.Disconnect slf.c])

/-- `slf.mx.Lock()` on a free mutex. -/
def MongoDB.lock (slf : MongoDB) : MongoDB := { slf with mx := true }

/-- `slf.mx.Unlock()`. -/
def MongoDB.unlock (slf : MongoDB) : MongoDB := { slf with mx := false }

/-- The dial both `Init` and `getClient` make: `mgc := &mongoClient{}` followed by
`mgc.connect(slf.Deplay...)`. -/
def MongoDB.dial (slf : MongoDB) (env : Env) : mongoClient × Option String × List Event :=
  mongoClient.zero.connect slf.Deplay.Host slf.Deplay.URI slf.Deplay.DBName
    slf.Deplay.MaxPoolSize slf.Deplay.MinPoolSize slf.Deplay.SocketTimeout
    slf.Deplay.TimeOut slf.Deplay.HeartbeatInterval slf.Deplay.IdleTime env

/-- `MongoDB.freeClient`. -/
def MongoDB.freeClient (slf : MongoDB) (free : mongoClient) : Res Unit :=
  if slf.mx then ⟨slf, .blocked, []⟩ else
  let slf := slf.lock
  let slf := { slf with cs := slf.cs ++ [free] }
  ⟨slf.unlock, .ret (), []⟩

/-- `MongoDB.getClient`; the value returned is the pair `(*mongoClient, error)`.
The deferred `Unlock` runs on every exit, a panic included. -/
def MongoDB.getClient (drv : Driver) (slf : MongoDB) (env : Env) :
    Res (Option mongoClient × Option String) :=
  if slf.mx then ⟨slf, .blocked, []⟩ else
  let slf := slf.lock
  match slf.cs with
  | [] =>
    if slf.size < slf.MaxClient then
      match slf.dial env with
      | (_, some err, log) => ⟨slf.unlock, .ret (none, some err), log⟩
      | (mgc, none, log) =>
        let slf := { slf with size := slf.size + 1 }
        ⟨slf.unlock, .ret (some mgc, none), log⟩
    else
      ⟨slf.unlock, .ret (none, some "mongoDB dbpooling is fulled"), []⟩
  | client :: rest =>
    let slf := { slf with cs := rest }
    match Ping drv client.c env.ping with
    | .panics msg => ⟨slf.unlock, .panic msg, [Event.Ping client.c]⟩
    | .returns (some err) =>
      let slf := { slf with size := slf.size - 1 }
      match client.close drv with
      | (.returns _, log) => ⟨slf.unlock, .ret (none, some err), Event.Ping client.c :: log⟩
      | (.panics msg, log) => ⟨slf.unlock, .panic msg, Event.Ping client.c :: log⟩
    | .returns none => ⟨slf.unlock, .ret (some client, none), [Event.Ping client.c]⟩

/-- The loop of `Init`, `left` iterations before `i` reaches `slf.MinClient`.
`util.AssertEmpty` belongs to another module and is the parameter `AssertEmpty`.
Go evaluates the arguments `err != nil` and `err.Error()` before the call, and
`err.Error()` on a nil error is a nil dereference. -/
def MongoDB.InitLoop (AssertEmpty : Bool → String → Reply Unit) (envs : Nat → Env) :
    Nat → Nat → MongoDB → List Event → Res (Option String)
  | 0, _, slf, log => ⟨slf.unlock, .ret none, log⟩
  | left + 1, i, slf, log =>
    match slf.dial (envs i) with
    | (_, none, ev) => ⟨slf.unlock, .panic nilDeref, log ++ ev⟩
    | (mgc, some e, ev) =>
      match AssertEmpty true e with
      | .panics msg => ⟨slf.unlock, .panic msg, log ++ ev⟩
      | .returns _ =>
        MongoDB.InitLoop AssertEmpty envs left (i + 1)
          { slf with cs := slf.cs ++ [mgc], size := slf.size + 1 } (log ++ ev)

/-- `MongoDB.Init`; `envs i` is what the driver answers to the dial of iteration
`i`.  The loop `for i := 0; i < slf.MinClient; i++` makes `MinClient` iterations
(none when `MinClient` is negative).  The value returned is the error. -/
def MongoDB.Init (AssertEmpty : Bool → String → Reply Unit) (slf : MongoDB)
    (envs : Nat → Env) : Res (Option String) :=
  if slf.mx then ⟨slf, .blocked, []⟩ else
  MongoDB.InitLoop AssertEmpty envs slf.MinClient.toNat 0 slf.lock []

/-- The loop `for _, v := range slf.cs { v.close() }` of `Close`: the clients as
the loop leaves them, the panic that stopped it (if one did) and the log. -/
def closeAll (drv : Driver) : List mongoClient → List mongoClient × Option String × List Event
  | [] => ([], none, [])
  | v :: vs =>
    match v.close drv with
    | (.panics msg, ev) => (v :: vs, some msg, ev)
    | (.returns v1, ev) =>
      match closeAll drv vs with
      | (vs1, p, ev1) => (v1 :: vs1, p, ev ++ ev1)

/-- The loop `for { ... }` of `Close`, for at most `fuel` iterations (`none`: the
fuel ran out before the loop ended).  Only two of its three branches unlock
the mutex. -/
def MongoDB.CloseLoop (drv : Driver) : Nat → MongoDB → List Event → Option (Res Unit)
  | 0, _, _ => none
  | fuel + 1, slf, log =>
    if slf.mx then some ⟨slf, .blocked, log⟩ else
    let slf := slf.lock
    if slf.size = 0 then
      some ⟨slf.unlock, .ret (), log⟩
    else
      let n := slf.cs.length
      if n = 0 then
        MongoDB.CloseLoop drv fuel slf.unlock (log ++ [Event.Sleep])
      else
        match closeAll drv slf.cs with
        | (vs, some msg, ev) => some ⟨{ slf with cs := vs }, .panic msg, log ++ ev⟩
        | (vs, none, ev) =>
          MongoDB.CloseLoop drv fuel { slf with cs := vs.drop n, size := slf.size - n } (log ++ ev)

/-- `MongoDB.Close`. -/
def MongoDB.Close (drv : Driver) (fuel : Nat) (slf : MongoDB) : Option (Res Unit) :=
  MongoDB.CloseLoop drv fuel slf []

/-- The frame all fifteen facade operations are written in:
`client, err := slf.getClient()`, return the error when there is one,
`defer slf.freeClient(client)`, then the body.  `onErr` builds the values
returned with a `getClient` error and `body` is what the rest of the function
computes from its driver calls; the deferred `freeClient` runs whether the body
returns or panics.  `getClient` never returns `(nil, nil)`; Go would panic in
the body on `client.db`. -/
def MongoDB.borrow {α : Type} (drv : Driver) (slf : MongoDB) (env : Env)
    (onErr : String → α) (body : mongoClient → Reply α) : Res α :=
  match slf.getClient drv env with
  | ⟨pool, .blocked, log⟩ => ⟨pool, .blocked, log⟩
  | ⟨pool, .panic msg, log⟩ => ⟨pool, .panic msg, log⟩
  | ⟨pool, .ret (_, some err), log⟩ => ⟨pool, .ret (onErr err), log⟩
  | ⟨pool, .ret (none, none), log⟩ => ⟨pool, .panic nilDeref, log⟩
  | ⟨pool, .ret (some client, none), log⟩ =>
    match body client, pool.freeClient client with
    | _, ⟨pool1, .blocked, _⟩ => ⟨pool1, .blocked, log⟩
    | _, ⟨pool1, .panic msg, _⟩ => ⟨pool1, .panic msg, log⟩
    | .returns a, ⟨pool1, .ret _, _⟩ => ⟨pool1, .ret a, log⟩
    | .panics msg, ⟨pool1, .ret _, _⟩ => ⟨pool1, .panic msg, log⟩

/-- Lifts a function over the value a driver call returns. -/
def Reply.map {γ α : Type} (f : γ → α) : Reply γ → Reply α
  | .returns g => .returns (f g)
  | .panics msg => .panics msg

/-- `MongoDB.InsertOne`: `q` is the outcome of `Collection(name).InsertOne`; the
collection name and the document only reach the driver.  Returns
`(r.InsertedID, error)`. -/
def MongoDB.InsertOne (drv : Driver) (slf : MongoDB) (env : Env) (q : Reply (Answer Nat)) :
    Res (Option Nat × Option String) :=
  slf.borrow drv env (fun err => (none, some err)) (fun _ =>
    q.map (fun a => match a with
      | .err rerr => (none, some rerr)
      | .ok r => (some r, none)))

/-- `MongoDB.InsertMany`: returns `(r.InsertedIDs, error)`. -/
def MongoDB.InsertMany (drv : Driver) (slf : MongoDB) (env : Env) (q : Reply (Answer (List Nat))) :
    Res (List Nat × Option String) :=
  slf.borrow drv env (fun err => ([], some err)) (fun _ =>
    q.map (fun a => match a with
      | .err rerr => ([], some rerr)
      | .ok r => (r, none)))

/-- `MongoDB.FindOne`: `q` is the outcome of `FindOne` followed by `r.Decode(out)`,
the decode error.  Returns the error. -/
def MongoDB.FindOne (drv : Driver) (slf : MongoDB) (env : Env) (q : Reply (Option String)) :
    Res (Option String) :=
  slf.borrow drv env (fun err => some err) (fun _ =>
    q.map (fun derr => match derr with
      | some derr => some derr
      | none => none))

/-- The loop `for r.Next(ctx) { ... }` of `Find` over the documents of the cursor,
each given by what `r.Decode` makes of it; `ary` is the slice built so far. -/
def FindLoop : List (Answer Nat) → List Nat → List Nat × Option String
  | [], ary => (ary, none)
  | .err derr :: _, _ => ([], some derr)
  | .ok decode :: docs, ary => FindLoop docs (ary ++ [decode])

/-- `MongoDB.Find`: `q` is the outcome of `Collection(name).Find`, a cursor (the
list of its documents) or an error.  Returns `(ary, error)`. -/
def MongoDB.Find (drv : Driver) (slf : MongoDB) (env : Env)
    (q : Reply (Answer (List (Answer Nat)))) : Res (List Nat × Option String) :=
  slf.borrow drv env (fun err => ([], some err)) (fun _ =>
    q.map (fun a => match a with
      | .err rerr => ([], some rerr)
      | .ok r => FindLoop r []))

/-- The body shared by `UpdateOne`, `UpdateMany` and `ReplaceOne`: the four
fields of the driver's result, or zeros and the error. -/
def updateResult (a : Answer (Int × Int × Int × Option Nat)) :
    Int × Int × Int × Option Nat × Option String :=
  match a with
  | .err rerr => (0, 0, 0, none, some rerr)
  | .ok (matched, modified, upserted, id) => (matched, modified, upserted, id, none)

/-- `MongoDB.UpdateOne`: returns `(MatchedCount, ModifiedCount, UpsertedCount,
UpsertedID, error)`. -/
def MongoDB.UpdateOne (drv : Driver) (slf : MongoDB) (env : Env)
    (q : Reply (Answer (Int × Int × Int × Option Nat))) :
    Res (Int × Int × Int × Option Nat × Option String) :=
  slf.borrow drv env (fun err => (0, 0, 0, none, some err)) (fun _ => q.map updateResult)

/-- `MongoDB.UpdateMany`. -/
def MongoDB.UpdateMany (drv : Driver) (slf : MongoDB) (env : Env)
    (q : Reply (Answer (Int × Int × Int × Option Nat))) :
    Res (Int × Int × Int × Option Nat × Option String) :=
  slf.borrow drv env (fun err => (0, 0, 0, none, some err)) (fun _ => q.map updateResult)

/-- `MongoDB.ReplaceOne`. -/
def MongoDB.ReplaceOne (drv : Driver) (slf : MongoDB) (env : Env)
    (q : Reply (Answer (Int × Int × Int × Option Nat))) :
    Res (Int × Int × Int × Option Nat × Option String) :=
  slf.borrow drv env (fun err => (0, 0, 0, none, some err)) (fun _ => q.map updateResult)

/-- `MongoDB.DeleteOne`: returns `(r.DeletedCount, error)`. -/
def MongoDB.DeleteOne (drv : Driver) (slf : MongoDB) (env : Env) (q : Reply (Answer Int)) :
    Res (Int × Option String) :=
  slf.borrow drv env (fun err => (0, some err)) (fun _ =>
    q.map (fun a => match a with
      | .err rerr => (0, some rerr)
      | .ok r => (r, none)))

/-- `MongoDB.DeleteMany`. -/
def MongoDB.DeleteMany (drv : Driver) (slf : MongoDB) (env : Env) (q : Reply (Answer Int)) :
    Res (Int × Option String) :=
  slf.borrow drv env (fun err => (0, some err)) (fun _ =>
    q.map (fun a => match a with
      | .err rerr => (0, some rerr)
      | .ok r => (r, none)))

/-- `MongoDB.FindOneAndDelete`: `q` is the decode error. -/
def MongoDB.FindOneAndDelete (drv : Driver) (slf : MongoDB) (env : Env)
    (q : Reply (Option String)) : Res (Option String) :=
  slf.borrow drv env (fun err => some err) (fun _ =>
    q.map (fun derr => match derr with
      | some derr => some derr
      | none => none))

/-- `MongoDB.FindOneAndUpdate`. -/
def MongoDB.FindOneAndUpdate (drv : Driver) (slf : MongoDB) (env : Env)
    (q : Reply (Option String)) : Res (Option String) :=
  slf.borrow drv env (fun err => some err) (fun _ =>
    q.map (fun derr => match derr with
      | some derr => some derr
      | none => none))

/-- `MongoDB.FindOneAndReplace`. -/
def MongoDB.FindOneAndReplace (drv : Driver) (slf : MongoDB) (env : Env)
    (q : Reply (Option String)) : Res (Option String) :=
  slf.borrow drv env (fun err => some err) (fun _ =>
    q.map (fun derr => match derr with
      | some derr => some derr
      | none => none))

/-- `MongoDB.Distinct`: returns `(r, error)`. -/
def MongoDB.Distinct (drv : Driver) (slf : MongoDB) (env : Env) (q : Reply (Answer (List Nat))) :
    Res (List Nat × Option String) :=
  slf.borrow drv env (fun err => ([], some err)) (fun _ =>
    q.map (fun a => match a with
      | .err rerr => ([], some rerr)
      | .ok r => (r, none)))

/-- `MongoDB.Drop`: returns the driver's error as it is. -/
def MongoDB.Drop (drv : Driver) (slf : MongoDB) (env : Env) (q : Reply (Option String)) :
    Res (Option String) :=
  slf.borrow drv env (fun err => some err) (fun _ => q)

/-- `MongoDB.CountDocuments`: returns the driver's pair `(count, error)` as it is. -/
def MongoDB.CountDocuments (drv : Driver) (slf : MongoDB) (env : Env)
    (q : Reply (Int × Option String)) : Res (Int × Option String) :=
  slf.borrow drv env (fun err => (0, some err)) (fun _ => q)

/-- One call of a sequence on the pool: `getClient` with the driver's answers, or
`freeClient` with the pointer released. -/
inductive Call where
  | get (env : Env)
  | free (c : mongoClient)
  deriving DecidableEq, Repr

/-- The pool after one call. -/
def MongoDB.call (drv : Driver) (slf : MongoDB) : Call → MongoDB
  | .get env => (slf.getClient drv env).pool
  | .free c => (slf.freeClient c).pool

/-- The pool after a sequence of calls. -/
def MongoDB.run (drv : Driver) (slf : MongoDB) (calls : List Call) : MongoDB :=
  calls.foldl (MongoDB.call drv) slf

/-- A pool together with the connections handed out by a successful `getClient`
and not released since. -/
structure Tracked where
  pool : MongoDB
  held : List mongoClient

/-- One call of a sequence in which `freeClient` only releases a connection that is
held (`none`: the call releases something else). -/
def Tracked.call (drv : Driver) (t : Tracked) : Call → Option Tracked
  | .get env =>
    match t.pool.getClient drv env with
    | ⟨pool, .ret (some c, none), _⟩ => some ⟨pool, c :: t.held⟩
    | ⟨pool, _, _⟩ => some ⟨pool, t.held⟩
  | .free c =>
    if c ∈ t.held then some ⟨(t.pool.freeClient c).pool, t.held.erase c⟩ else none

/-- A sequence of calls in which every release is of a held connection. -/
def Tracked.run (drv : Driver) : Tracked → List Call → Option Tracked
  | t, [] => some t
  | t, c :: calls =>
    match t.call drv c with
    | none => none
    | some t1 => Tracked.run drv t1 calls

/-- The pool before call number `i` (from 0) of consecutive `getClient` calls with no
release in between; `envs i` is what the driver answers during call `i`. -/
def MongoDB.before (drv : Driver) (slf : MongoDB) (envs : Nat → Env) : Nat → MongoDB
  | 0 => slf
  | i + 1 => ((MongoDB.before drv slf envs i).getClient drv (envs i)).pool

/-- Call number `i` of consecutive `getClient` calls. -/
def MongoDB.nthGet (drv : Driver) (slf : MongoDB) (envs : Nat → Env) (i : Nat) :
    Res (Option mongoClient × Option String) :=
  (MongoDB.before drv slf envs i).getClient drv (envs i)

/-- A deployment record for the examples. -/
def deplay0 : MongoDeplay :=
  { Host := ["localhost:27017"], URI := "mongodb://localhost:27017", DBName := "test",
    MaxPoolSize := 10, MinPoolSize := 1, SocketTimeout := 5, TimeOut := 5,
    HeartbeatInterval := 10, IdleTime := 60 }

/-- A connected client with driver handle `h`. -/
def client0 (h : Nat) : mongoClient := { c := some h, db := some h, timeSec := 5 }

/-- A free pool with the given idle list, live count and bounds. -/
def pool0 (cs : List mongoClient) (size minClient maxClient : Int) : MongoDB :=
  { cs := cs, size := size, mx := false, Deplay := deplay0,
    MinClient := minClient, MaxClient := maxClient }

/-- The driver answers in which the dial succeeds with handle `h` and the ping succeeds. -/
def envOk (h : Nat) : Env := { connect := .ok h, database := some h, ping := none }

/-- The driver answers in which the ping fails. -/
def envPingFails : Env :=
  { connect := .ok 9, database := some 9, ping := some "server selection timeout" }

/-- A driver whose methods panic on a nil receiver, as a method that reads its
receiver does. -/
def drvStrict : Driver := { nilDisconnect := false, nilPing := false }

/-- The invariant of a tracked pool: the mutex is free and the idle connections
together with the held ones are at most `size`. -/
def Tracked.ok (t : Tracked) : Prop :=
  t.pool.mx = false ∧ (t.pool.cs.length : Int) + t.held.length ≤ t.pool.size

/-- What a facade operation that ended with `r` did with the connection it
borrowed, for the pool `slf` it was called on and its `getClient` call `g`: it
did not block; when `getClient` returned, the number of connections checked
out, `size - len(cs)`, is what it was before the operation, and the operation
returned whenever its body did; and the connection `getClient` handed out is
in the idle list. -/
def Released {α : Type} (slf : MongoDB) (g : Res (Option mongoClient × Option String))
    (bodyReturns : Prop) (r : Res α) : Prop :=
  r.out ≠ .blocked ∧
  ((∃ v, g.out = .ret v) →
    r.pool.size - r.pool.cs.length = slf.size - slf.cs.length ∧
    (bodyReturns → ∃ a, r.out = .ret a)) ∧
  (∀ client, g.out = .ret (some client, none) → client ∈ r.pool.cs)

/-! ## `getClient` on one pool state -/

/-- The refusal: nothing idle and `size` not below `MaxClient`. -/
theorem getClient_full (drv : Driver) (slf : MongoDB) (env : Env)
    (hmx : slf.mx = false) (hcs : slf.cs = []) (hsz : ¬ slf.size < slf.MaxClient) :
    (slf.getClient drv env).out = .ret (none, some "mongoDB dbpooling is fulled") ∧
    (slf.getClient drv env).log = [] ∧
    (slf.getClient drv env).pool = slf := by
  cases slf
  simp only at hmx hcs hsz
  subst hmx hcs
  simp [MongoDB.getClient, MongoDB.lock, MongoDB.unlock, hsz]

/-- C5: with an empty idle list and `size = MaxClient`, `getClient` returns the error
"mongoDB dbpooling is fulled" and a nil connection, calls nothing in the driver
(no dial) and leaves the pool, idle list and size included, as it was. -/
theorem getClient_exhausted (drv : Driver) (slf : MongoDB) (env : Env)
    (hmx : slf.mx = false) (hcs : slf.cs = []) (hsz : slf.size = slf.MaxClient) :
    (slf.getClient drv env).out = .ret (none, some "mongoDB dbpooling is fulled") ∧
    (slf.getClient drv env).log = [] ∧
    (slf.getClient drv env).pool = slf :=
  getClient_full drv slf env hmx hcs (by omega)

/-- Witness of C5: a pool with no idle connection and `size = MaxClient = 3`. -/
theorem getClient_exhausted_witness :
    ((pool0 [] 3 0 3).getClient drvStrict (envOk 7)).out
        = .ret (none, some "mongoDB dbpooling is fulled") ∧
    ((pool0 [] 3 0 3).getClient drvStrict (envOk 7)).log = [] ∧
    ((pool0 [] 3 0 3).getClient drvStrict (envOk 7)).pool = pool0 [] 3 0 3 :=
  getClient_exhausted drvStrict (pool0 [] 3 0 3) (envOk 7) rfl rfl rfl

/-- C6: when the head of the idle list is a connected client whose ping fails,
`getClient` returns a nil connection, removes the head from the idle list,
closes it (`Disconnect` is called on its handle and `close` completes) and
leaves `size` one less than before. -/
theorem getClient_evicts_dead_head (drv : Driver) (slf : MongoDB) (env : Env)
    (head : mongoClient) (rest : List mongoClient) (h : Nat) (e : String)
    (hmx : slf.mx = false) (hcs : slf.cs = head :: rest) (hc : head.c = some h)
    (hping : env.ping = some e) :
    (∃ err, (slf.getClient drv env).out = .ret (none, err)) ∧
    (slf.getClient drv env).pool.cs = rest ∧
    (slf.getClient drv env).pool.size = slf.size - 1 ∧
    Event.Disconnect head.c ∈ (slf.getClient drv env).log ∧
    (head.close drv).1 = .returns { head with c := none, db := none } := by
  cases slf
  simp only at hmx hcs
  subst hmx hcs
  simp [MongoDB.getClient, MongoDB.lock, MongoDB.unlock, Ping, Disconnect,
    mongoClient.close, hc, hping]

/-- Witness of C6: two idle connections, the ping of the first one fails. -/
theorem getClient_evicts_dead_head_witness :
    (∃ err, ((pool0 [client0 1, client0 2] 2 0 3).getClient drvStrict envPingFails).out
        = .ret (none, err)) ∧
    ((pool0 [client0 1, client0 2] 2 0 3).getClient drvStrict envPingFails).pool.cs
        = [client0 2] ∧
    ((pool0 [client0 1, client0 2] 2 0 3).getClient drvStrict envPingFails).pool.size
        = (pool0 [client0 1, client0 2] 2 0 3).size - 1 ∧
    Event.Disconnect (client0 1).c
        ∈ ((pool0 [client0 1, client0 2] 2 0 3).getClient drvStrict envPingFails).log ∧
    ((client0 1).close drvStrict).1 = .returns { client0 1 with c := none, db := none } :=
  getClient_evicts_dead_head drvStrict (pool0 [client0 1, client0 2] 2 0 3) envPingFails
    (client0 1) [client0 2] 1 "server selection timeout" rfl rfl rfl rfl

/-- Counterexample to C4: with two connected idle clients and a failing ping of the
first, `getClient` returns the ping error itself to the caller, with a nil
connection; the second idle client is still in the idle list, never pinged,
and nothing is dialed. -/
theorem getClient_returns_ping_error :
    ((pool0 [client0 1, client0 2] 2 0 3).getClient drvStrict envPingFails).out
        = .ret (none, some "server selection timeout") ∧
    ((pool0 [client0 1, client0 2] 2 0 3).getClient drvStrict envPingFails).pool.cs
        = [client0 2] ∧
    ((pool0 [client0 1, client0 2] 2 0 3).getClient drvStrict envPingFails).log
        = [Event.Ping (some 1), Event.Disconnect (some 1)] := by
  refine ⟨rfl, rfl, rfl⟩

/-- C4, amended: when the head of the idle list is a connected client whose ping
fails with error `e`, `getClient` evicts it and returns `e` to the caller with a
nil connection; it makes that one ping and that one disconnect in the driver
and nothing else (no ping of the remaining idle clients, no dial), and the
remaining idle clients stay in the idle list. -/
theorem getClient_ping_error_surfaces (drv : Driver) (slf : MongoDB) (env : Env)
    (head : mongoClient) (rest : List mongoClient) (h : Nat) (e : String)
    (hmx : slf.mx = false) (hcs : slf.cs = head :: rest) (hc : head.c = some h)
    (hping : env.ping = some e) :
    (slf.getClient drv env).out = .ret (none, some e) ∧
    (slf.getClient drv env).log = [Event.Ping head.c, Event.Disconnect head.c] ∧
    (slf.getClient drv env).pool = { slf with cs := rest, size := slf.size - 1 } := by
  cases slf
  simp only at hmx hcs
  subst hmx hcs
  simp [MongoDB.getClient, MongoDB.lock, MongoDB.unlock, Ping, Disconnect,
    mongoClient.close, hc, hping]

/-- Witness of C4 amended: three idle connections, the ping of the first one fails. -/
theorem getClient_ping_error_surfaces_witness :
    ((pool0 [client0 4, client0 5, client0 6] 3 0 3).getClient drvStrict envPingFails).out
      = .ret (none, some "server selection timeout") ∧
    ((pool0 [client0 4, client0 5, client0 6] 3 0 3).getClient drvStrict envPingFails).log
      = [Event.Ping (client0 4).c, Event.Disconnect (client0 4).c] ∧
    ((pool0 [client0 4, client0 5, client0 6] 3 0 3).getClient drvStrict envPingFails).pool
      = { pool0 [client0 4, client0 5, client0 6] 3 0 3 with
          cs := [client0 5, client0 6],
          size := (pool0 [client0 4, client0 5, client0 6] 3 0 3).size - 1 } :=
  getClient_ping_error_surfaces drvStrict (pool0 [client0 4, client0 5, client0 6] 3 0 3)
    envPingFails (client0 4) [client0 5, client0 6] 4 "server selection timeout"
    rfl rfl rfl rfl

/-! ## `mongoClient.close` -/

/-- Counterexample to C10: with a driver whose `Disconnect` panics on a nil
receiver, the first `close` of a connected client completes and leaves
`c = nil`, `db = nil`, and the second `close`, which calls `Disconnect` through
that nil `c`, panics. -/
theorem close_twice_panics :
    ((client0 1).close drvStrict).1 = .returns { c := none, db := none, timeSec := 5 } ∧
    (mongoClient.close drvStrict { c := none, db := none, timeSec := 5 }).1
      = .panics nilDeref ∧
    (mongoClient.close drvStrict { c := none, db := none, timeSec := 5 }).2
      = [Event.Disconnect none] := by
  refine ⟨rfl, rfl, rfl⟩

/-- C10, amended: the first `close` of a connected client completes and leaves
`c = nil`, `db = nil`; `close` has no nil check, so a second `close` calls
`Disconnect` through the nil `c`: it completes, leaving the same state, when the
driver's `Disconnect` returns on a nil receiver, and panics when it does not. -/
theorem close_then_close (drv : Driver) (slf : mongoClient) (h : Nat) (hc : slf.c = some h) :
    (slf.close drv).1 = .returns { slf with c := none, db := none } ∧
    (mongoClient.close drv { slf with c := none, db := none }).2 = [Event.Disconnect none] ∧
    (mongoClient.close drv { slf with c := none, db := none }).1
      = if drv.nilDisconnect then .returns { slf with c := none, db := none }
        else .panics nilDeref := by
  cases hd : drv.nilDisconnect <;> simp [mongoClient.close, Disconnect, hc, hd]

/-- Witness of C10 amended: a connected client and a driver that panics on nil. -/
theorem close_then_close_witness :
    ((client0 1).close drvStrict).1 = .returns { client0 1 with c := none, db := none } ∧
    (mongoClient.close drvStrict { client0 1 with c := none, db := none }).2
      = [Event.Disconnect none] ∧
    (mongoClient.close drvStrict { client0 1 with c := none, db := none }).1
      = if drvStrict.nilDisconnect then .returns { client0 1 with c := none, db := none }
        else .panics nilDeref :=
  close_then_close drvStrict (client0 1) 1 rfl

/-! ## `Init` and `Close` -/

/-- C2 fails on the code: with `MinClient = 1`, an empty pool and a dial that
succeeds, `Init` panics on the first iteration (`err.Error()` is evaluated on
the nil error as an argument of `util.AssertEmpty`, whatever that function
does), after the one dial, with the idle list still empty and `size` still 0. -/
theorem Init_panics_when_dial_succeeds (AssertEmpty : Bool → String → Reply Unit) :
    ((pool0 [] 0 1 3).Init AssertEmpty (fun _ => envOk 7)).out = .panic nilDeref ∧
    ((pool0 [] 0 1 3).Init AssertEmpty (fun _ => envOk 7)).pool.cs = [] ∧
    ((pool0 [] 0 1 3).Init AssertEmpty (fun _ => envOk 7)).pool.size = 0 ∧
    ((pool0 [] 0 1 3).Init AssertEmpty (fun _ => envOk 7)).log = [Event.Connect] := by
  refine ⟨rfl, rfl, rfl, rfl⟩

/-- C3 fails on the code: with one idle connection and `size = 1`, `Close` closes
the connection, empties the idle list and sets `size` to 0, and then blocks on
`slf.mx.Lock()` at the top of the loop, the mutex being still held by the
iteration that drained the pool; with less fuel the loop has not ended. So
`Close` never returns. -/
theorem Close_blocks_after_drain (drv : Driver) (fuel : Nat) :
    (∃ r, (pool0 [client0 1] 1 0 3).Close drv (fuel + 2) = some r ∧ r.out = .blocked ∧
      r.pool.cs = [] ∧ r.pool.size = 0 ∧ r.pool.mx = true ∧
      r.log = [Event.Disconnect (some 1)]) ∧
    (pool0 [client0 1] 1 0 3).Close drv 1 = none ∧
    (pool0 [client0 1] 1 0 3).Close drv 0 = none := by
  refine ⟨⟨_, rfl, rfl, rfl, rfl, rfl, rfl⟩, rfl, rfl⟩

/-! ## What one call does to the pool -/

/-- The pool after `getClient`, by cases: a connection is returned and the pool
either grew by a dial or lost the head of its idle list; or an error and a nil
connection are returned and the pool is as it was or lost the head of its idle
list and one of `size`; or the call panics, the head of the idle list is gone
and `size` is as it was or one less; or the call blocks on a held mutex. -/
theorem getClient_cases (drv : Driver) (slf : MongoDB) (env : Env) :
    (slf.getClient drv env).pool.MaxClient = slf.MaxClient ∧
    (slf.getClient drv env).pool.mx = slf.mx ∧
    ((∃ c, (slf.getClient drv env).out = .ret (some c, none) ∧
        ((slf.cs = [] ∧ slf.size < slf.MaxClient ∧ (slf.getClient drv env).pool.cs = [] ∧
            (slf.getClient drv env).pool.size = slf.size + 1) ∨
         (∃ rest, slf.cs = c :: rest ∧ (slf.getClient drv env).pool.cs = rest ∧
            (slf.getClient drv env).pool.size = slf.size))) ∨
     (∃ e, (slf.getClient drv env).out = .ret (none, some e) ∧
        (((slf.getClient drv env).pool.cs = slf.cs ∧
            (slf.getClient drv env).pool.size = slf.size) ∨
         (∃ head rest, slf.cs = head :: rest ∧ (slf.getClient drv env).pool.cs = rest ∧
            (slf.getClient drv env).pool.size = slf.size - 1))) ∨
     (∃ msg, (slf.getClient drv env).out = .panic msg ∧
        ∃ head rest, slf.cs = head :: rest ∧ (slf.getClient drv env).pool.cs = rest ∧
          ((slf.getClient drv env).pool.size = slf.size ∨
           (slf.getClient drv env).pool.size = slf.size - 1)) ∨
     ((slf.getClient drv env).out = .blocked ∧ slf.mx = true ∧
        (slf.getClient drv env).pool.cs = slf.cs ∧
        (slf.getClient drv env).pool.size = slf.size)) := by
  obtain ⟨cs, size, mx, D, mn, Mx⟩ := slf
  cases mx
  · cases cs with
    | nil =>
      by_cases hlt : size < Mx
      · rcases hd : MongoDB.dial ⟨[], size, true, D, mn, Mx⟩ env with ⟨mgc, err, log⟩
        cases err <;> simp [MongoDB.getClient, MongoDB.lock, MongoDB.unlock, hlt, hd]
      · simp [MongoDB.getClient, MongoDB.lock, MongoDB.unlock, hlt]
    | cons head rest =>
      rcases hp : Ping drv head.c env.ping with (_ | err) | msg
      · simp [MongoDB.getClient, MongoDB.lock, MongoDB.unlock, hp]
      · rcases hc : head.close drv with ⟨(cl | msg), log⟩ <;>
          simp [MongoDB.getClient, MongoDB.lock, MongoDB.unlock, hp, hc]
      · simp [MongoDB.getClient, MongoDB.lock, MongoDB.unlock, hp]
  · simp [MongoDB.getClient]

/-- The pool after `freeClient` on a free mutex: the released pointer is appended. -/
theorem freeClient_pool (slf : MongoDB) (free : mongoClient) (hmx : slf.mx = false) :
    (slf.freeClient free).pool = { slf with cs := slf.cs ++ [free] } ∧
    (slf.freeClient free).out = .ret () := by
  cases slf
  simp only at hmx
  subst hmx
  simp [MongoDB.freeClient, MongoDB.lock, MongoDB.unlock]

/-- Neither `freeClient` nor a blocked call touches `size` or `MaxClient`. -/
theorem freeClient_size (slf : MongoDB) (free : mongoClient) :
    (slf.freeClient free).pool.size = slf.size ∧
    (slf.freeClient free).pool.MaxClient = slf.MaxClient := by
  cases hmx : slf.mx
  · rw [(freeClient_pool slf free hmx).1]
    exact ⟨rfl, rfl⟩
  · simp [MongoDB.freeClient, hmx]

/-- One call keeps `size ≤ MaxClient` and does not change `MaxClient`. -/
theorem call_size_le (drv : Driver) (slf : MongoDB) (c : Call)
    (h : slf.size ≤ slf.MaxClient) :
    (slf.call drv c).size ≤ slf.MaxClient ∧ (slf.call drv c).MaxClient = slf.MaxClient := by
  cases c with
  | get env =>
    obtain ⟨hM, _, hcases⟩ := getClient_cases drv slf env
    refine ⟨?_, hM⟩
    show (slf.getClient drv env).pool.size ≤ slf.MaxClient
    rcases hcases with ⟨c, _, ⟨_, hlt, _, hs⟩ | ⟨rest, _, _, hs⟩⟩ |
      ⟨e, _, ⟨_, hs⟩ | ⟨head, rest, _, _, hs⟩⟩ |
      ⟨msg, _, head, rest, _, _, hs | hs⟩ | ⟨_, _, _, hs⟩ <;> omega
  | free cl =>
    obtain ⟨hs, hM⟩ := freeClient_size slf cl
    refine ⟨?_, hM⟩
    show (slf.freeClient cl).pool.size ≤ slf.MaxClient
    omega

/-- A sequence of calls keeps `size ≤ MaxClient` and does not change `MaxClient`. -/
theorem run_size_le (drv : Driver) (calls : List Call) :
    ∀ slf : MongoDB, slf.size ≤ slf.MaxClient →
      (slf.run drv calls).size ≤ slf.MaxClient ∧
      (slf.run drv calls).MaxClient = slf.MaxClient := by
  induction calls with
  | nil => intro slf h; exact ⟨h, rfl⟩
  | cons c calls ih =>
    intro slf h
    obtain ⟨h1, h2⟩ := call_size_le drv slf c h
    have := ih (slf.call drv c) (by omega)
    simp only [MongoDB.run, List.foldl_cons] at this ⊢
    omega

/-! ## Sequences of `getClient` and `freeClient` -/

/-- C1: from a pool with `size ≤ MaxClient`, after every call of every finite
sequence of `getClient` and `freeClient` calls (the first `n` calls, for every
`n`), whatever each dial and each ping yields and whatever is released,
`size ≤ MaxClient` holds; `MaxClient` is never changed. -/
theorem size_le_MaxClient_after_every_call (drv : Driver) (slf : MongoDB)
    (calls : List Call) (n : Nat) (h : slf.size ≤ slf.MaxClient) :
    (slf.run drv (calls.take n)).size ≤ (slf.run drv (calls.take n)).MaxClient ∧
    (slf.run drv (calls.take n)).MaxClient = slf.MaxClient := by
  obtain ⟨h1, h2⟩ := run_size_le drv (calls.take n) slf h
  exact ⟨by omega, h2⟩

/-- Witness of C1: a full pool (`size = MaxClient = 1`, nothing idle) is asked for a
connection, a failing one is released into it, and the next `getClient` evicts
it. -/
theorem size_le_MaxClient_after_every_call_witness :
    ((pool0 [] 1 0 1).run drvStrict
        ([Call.get (envOk 7), Call.free (client0 1), Call.get envPingFails].take 3)).size
      ≤ ((pool0 [] 1 0 1).run drvStrict
        ([Call.get (envOk 7), Call.free (client0 1), Call.get envPingFails].take 3)).MaxClient ∧
    ((pool0 [] 1 0 1).run drvStrict
        ([Call.get (envOk 7), Call.free (client0 1), Call.get envPingFails].take 3)).MaxClient
      = (pool0 [] 1 0 1).MaxClient :=
  size_le_MaxClient_after_every_call drvStrict (pool0 [] 1 0 1)
    [Call.get (envOk 7), Call.free (client0 1), Call.get envPingFails] 3 (by decide)

/-- One admissible call keeps the invariant; a release appends one idle
connection and leaves `size` alone. -/
theorem Tracked.call_ok (drv : Driver) (t t1 : Tracked) (c : Call) (hok : t.ok)
    (hstep : t.call drv c = some t1) :
    t1.ok ∧ (∀ cl, c = Call.free cl →
      t1.pool.cs.length = t.pool.cs.length + 1 ∧ t1.pool.size = t.pool.size) := by
  obtain ⟨hmx, hle⟩ := hok
  cases c with
  | get env =>
    obtain ⟨_, hmx1, hcases⟩ := getClient_cases drv t.pool env
    simp only [Tracked.call] at hstep
    refine ⟨?_, by intro cl hcl; cases hcl⟩
    rcases hr : t.pool.getClient drv env with ⟨pool, out, log⟩
    rw [hr] at hstep hcases hmx1
    simp only at hcases hmx1
    have hkeep : (∀ c, out ≠ .ret (some c, none)) → t1 = ⟨pool, t.held⟩ := by
      intro hne
      cases out with
      | ret v =>
        obtain ⟨c, e⟩ := v
        cases c with
        | none => simpa using hstep.symm
        | some c =>
          cases e with
          | none => exact absurd rfl (hne c)
          | some e => simpa using hstep.symm
      | panic msg => simpa using hstep.symm
      | blocked => simpa using hstep.symm
    rcases hcases with ⟨c, hout, ⟨hnil, _, hcs, hs⟩ | ⟨rest, hcons, hcs, hs⟩⟩ |
      ⟨e, hout, ⟨hcs, hs⟩ | ⟨head, rest, hcons, hcs, hs⟩⟩ |
      ⟨msg, hout, head, rest, hcons, hcs, hs | hs⟩ | ⟨hout, _, hcs, hs⟩
    · subst hout
      simp only [Option.some.injEq] at hstep
      subst hstep
      refine ⟨by simpa [hmx] using hmx1, ?_⟩
      simp only [hcs, hs, hnil, List.length_nil, List.length_cons] at hle ⊢
      push_cast at hle ⊢
      omega
    · subst hout
      simp only [Option.some.injEq] at hstep
      subst hstep
      refine ⟨by simpa [hmx] using hmx1, ?_⟩
      simp only [hcs, hs, hcons, List.length_cons] at hle ⊢
      push_cast at hle ⊢
      omega
    all_goals
      have hpool := hkeep (by rw [hout]; intro c hc; cases hc)
      subst hpool
      refine ⟨by simpa [hmx] using hmx1, ?_⟩
      simp only [hcs, hs] at hle ⊢
      first
        | exact hle
        | (simp only [hcons, List.length_cons] at hle
           push_cast at hle
           omega)
  | free cl =>
    simp only [Tracked.call] at hstep
    split at hstep
    · rename_i hmem
      simp only [Option.some.injEq] at hstep
      subst hstep
      have hp := (freeClient_pool t.pool cl hmx).1
      have hlen : (t.held.erase cl).length = t.held.length - 1 :=
        List.length_erase_of_mem hmem
      have hpos : 0 < t.held.length := List.length_pos_of_mem hmem
      refine ⟨⟨?_, ?_⟩, ?_⟩
      · simp only [hp]; exact hmx
      · simp only [hp, List.length_append, List.length_singleton, hlen]
        push_cast
        omega
      · intro cl1 _
        simp only [hp, List.length_append, List.length_singleton, and_self]
    · cases hstep

/-- An admissible sequence of calls keeps the invariant. -/
theorem Tracked.run_ok (drv : Driver) (calls : List Call) :
    ∀ t t1 : Tracked, t.ok → Tracked.run drv t calls = some t1 → t1.ok := by
  induction calls with
  | nil =>
    intro t t1 hok hrun
    simp only [Tracked.run, Option.some.injEq] at hrun
    subst hrun
    exact hok
  | cons c calls ih =>
    intro t t1 hok hrun
    simp only [Tracked.run] at hrun
    cases hstep : t.call drv c with
    | none => simp [hstep] at hrun
    | some t2 =>
      simp only [hstep] at hrun
      exact ih t2 t1 (Tracked.call_ok drv t t2 c hok hstep).1 hrun

/-- C9: in a sequence of calls from a pool with `len(cs) ≤ size` in which every
`freeClient` releases a connection obtained from an earlier successful
`getClient` and not released since (`pre` is what was called so far, `c` the
next call), the call leaves `len(cs) ≤ size`, and when it is a `freeClient` it
makes the idle list one longer and leaves `size` unchanged. -/
theorem freeClient_restores_idle_length (drv : Driver) (slf : MongoDB) (pre : List Call)
    (c : Call) (t1 t2 : Tracked) (hmx : slf.mx = false)
    (hle : (slf.cs.length : Int) ≤ slf.size)
    (hpre : Tracked.run drv ⟨slf, []⟩ pre = some t1) (hstep : t1.call drv c = some t2) :
    (t2.pool.cs.length : Int) ≤ t2.pool.size ∧
    (∀ cl, c = Call.free cl →
      t2.pool.cs.length = t1.pool.cs.length + 1 ∧ t2.pool.size = t1.pool.size) := by
  have h0 : Tracked.ok ⟨slf, []⟩ := ⟨hmx, by simpa using hle⟩
  have h1 : t1.ok := Tracked.run_ok drv pre ⟨slf, []⟩ t1 h0 hpre
  obtain ⟨⟨_, h2⟩, hfree⟩ := Tracked.call_ok drv t1 t2 c h1 hstep
  exact ⟨by omega, hfree⟩

/-- Witness of C9: the only idle connection is taken and released again. -/
theorem freeClient_restores_idle_length_witness :
    Tracked.run drvStrict ⟨pool0 [client0 1] 1 0 2, []⟩ [Call.get (envOk 7)]
      = some ⟨pool0 [] 1 0 2, [client0 1]⟩ ∧
    Tracked.call drvStrict ⟨pool0 [] 1 0 2, [client0 1]⟩ (Call.free (client0 1))
      = some ⟨pool0 [client0 1] 1 0 2, []⟩ ∧
    ((pool0 [client0 1] 1 0 2).cs.length : Int) ≤ (pool0 [client0 1] 1 0 2).size ∧
    ∀ cl, Call.free (client0 1) = Call.free cl →
      (pool0 [client0 1] 1 0 2).cs.length = (pool0 [] 1 0 2).cs.length + 1 ∧
      (pool0 [client0 1] 1 0 2).size = (pool0 [] 1 0 2).size :=
  ⟨rfl, rfl,
    freeClient_restores_idle_length drvStrict (pool0 [client0 1] 1 0 2) [Call.get (envOk 7)]
      (Call.free (client0 1)) ⟨pool0 [] 1 0 2, [client0 1]⟩ ⟨pool0 [client0 1] 1 0 2, []⟩
      rfl (by decide) rfl rfl⟩

/-! ## Consecutive `getClient` calls with no release -/

/-- The call that takes a connected idle client whose ping succeeds. -/
theorem getClient_idle (drv : Driver) (slf : MongoDB) (env : Env) (head : mongoClient)
    (rest : List mongoClient) (hmx : slf.mx = false) (hcs : slf.cs = head :: rest)
    (hc : head.c ≠ none) (hping : env.ping = none) :
    (slf.getClient drv env).pool = { slf with cs := rest } ∧
    (slf.getClient drv env).out = .ret (some head, none) ∧
    (slf.getClient drv env).log = [Event.Ping head.c] := by
  obtain ⟨h, hh⟩ := Option.ne_none_iff_exists.mp hc
  cases slf
  simp only at hmx hcs
  subst hmx hcs
  simp [MongoDB.getClient, MongoDB.lock, MongoDB.unlock, Ping, ← hh, hping]

/-- The call that dials with success. -/
theorem getClient_dials (drv : Driver) (slf : MongoDB) (env : Env) (h d : Nat)
    (hmx : slf.mx = false) (hcs : slf.cs = []) (hlt : slf.size < slf.MaxClient)
    (hconn : env.connect = .ok h) (hdb : env.database = some d) :
    (slf.getClient drv env).pool = { slf with size := slf.size + 1 } ∧
    (slf.getClient drv env).out
      = .ret (some { c := some h, db := some d, timeSec := slf.Deplay.TimeOut }, none) ∧
    (slf.getClient drv env).log = [Event.Connect] := by
  cases slf
  simp only at hmx hcs hlt
  subst hmx hcs
  simp [MongoDB.getClient, MongoDB.lock, MongoDB.unlock, MongoDB.dial, mongoClient.connect,
    mongoClient.zero, hlt, hconn, hdb]

/-- While idle connections remain, call `i` finds the pool with the first `i` of
them taken. -/
theorem before_idle (drv : Driver) (slf : MongoDB) (envs : Nat → Env)
    (hmx : slf.mx = false) (hc : ∀ cl ∈ slf.cs, cl.c ≠ none)
    (hping : ∀ i, (envs i).ping = none) :
    ∀ i, i ≤ slf.cs.length →
      MongoDB.before drv slf envs i = { slf with cs := slf.cs.drop i } := by
  intro i
  induction i with
  | zero => intro _; simp [MongoDB.before]
  | succ i ih =>
    intro hi
    have hlt : i < slf.cs.length := by omega
    have hdrop : slf.cs.drop i = slf.cs[i] :: slf.cs.drop (i + 1) :=
      List.drop_eq_getElem_cons hlt
    have hstep := (getClient_idle drv { slf with cs := slf.cs.drop i } (envs i) slf.cs[i]
      (slf.cs.drop (i + 1)) hmx hdrop (hc _ (List.getElem_mem _)) (hping i)).1
    simp only [MongoDB.before, ih (by omega), hstep]

/-- Once the idle list is used up, call `k + j` finds the pool after `j` dials. -/
theorem before_dial (drv : Driver) (slf : MongoDB) (envs : Nat → Env) (m : Nat)
    (hmx : slf.mx = false) (hc : ∀ cl ∈ slf.cs, cl.c ≠ none)
    (hsize : slf.size = slf.cs.length) (hmax : slf.MaxClient = m)
    (hping : ∀ i, (envs i).ping = none)
    (hdial : ∀ i, ∃ h d, (envs i).connect = .ok h ∧ (envs i).database = some d) :
    ∀ j, slf.cs.length + j ≤ m →
      MongoDB.before drv slf envs (slf.cs.length + j)
        = { slf with cs := [], size := slf.cs.length + j } := by
  intro j
  induction j with
  | zero =>
    intro _
    rw [Nat.add_zero, before_idle drv slf envs hmx hc hping _ (le_refl _)]
    simp [hsize]
  | succ j ih =>
    intro hj
    obtain ⟨h, d, hconn, hdb⟩ := hdial (slf.cs.length + j)
    have hstep := (getClient_dials drv { slf with cs := [], size := slf.cs.length + j }
      (envs (slf.cs.length + j)) h d hmx rfl
      (by simp only [hmax]; omega) hconn hdb).1
    rw [← Nat.add_assoc]
    simp only [MongoDB.before, ih (by omega), hstep]
    rfl

/-- C8: from a free pool with `k` connected idle clients, `size = k` and
`MaxClient = m ≥ k`, when every ping and every dial succeeds and nothing is
released, `m + 1` consecutive `getClient` calls go as follows: call `i < k`
returns idle client `i` without a dial and leaves `size = k`; call `i` with
`k ≤ i < m` dials, returns a connection and leaves `size = i + 1` (so `m` after
the last of them); call `m` returns the error "mongoDB dbpooling is fulled"
with no driver call and leaves `size = m`. -/
theorem consecutive_getClient_calls (drv : Driver) (slf : MongoDB) (envs : Nat → Env) (m : Nat)
    (hmx : slf.mx = false) (hc : ∀ cl ∈ slf.cs, cl.c ≠ none)
    (hsize : slf.size = slf.cs.length) (hmax : slf.MaxClient = m) (hkm : slf.cs.length ≤ m)
    (hping : ∀ i, (envs i).ping = none)
    (hdial : ∀ i, ∃ h d, (envs i).connect = .ok h ∧ (envs i).database = some d) :
    (∀ i (hi : i < slf.cs.length),
      (slf.nthGet drv envs i).out = .ret (some slf.cs[i], none) ∧
      Event.Connect ∉ (slf.nthGet drv envs i).log ∧
      (slf.nthGet drv envs i).pool.size = slf.cs.length) ∧
    (∀ i, slf.cs.length ≤ i → i < m →
      (∃ c, (slf.nthGet drv envs i).out = .ret (some c, none)) ∧
      Event.Connect ∈ (slf.nthGet drv envs i).log ∧
      (slf.nthGet drv envs i).pool.size = i + 1) ∧
    ((slf.nthGet drv envs m).out = .ret (none, some "mongoDB dbpooling is fulled") ∧
      (slf.nthGet drv envs m).log = [] ∧
      (slf.nthGet drv envs m).pool.size = m) := by
  refine ⟨?_, ?_, ?_⟩
  · intro i hi
    have hdrop : slf.cs.drop i = slf.cs[i] :: slf.cs.drop (i + 1) :=
      List.drop_eq_getElem_cons hi
    obtain ⟨hp, ho, hl⟩ := getClient_idle drv { slf with cs := slf.cs.drop i } (envs i)
      slf.cs[i] (slf.cs.drop (i + 1)) hmx hdrop (hc _ (List.getElem_mem _)) (hping i)
    simp only [MongoDB.nthGet, before_idle drv slf envs hmx hc hping i (by omega)]
    refine ⟨ho, ?_, ?_⟩
    · simp [hl]
    · rw [hp]
      exact hsize
  · intro i hki him
    obtain ⟨j, rfl⟩ := Nat.exists_eq_add_of_le hki
    obtain ⟨h, d, hconn, hdb⟩ := hdial (slf.cs.length + j)
    obtain ⟨hp, ho, hl⟩ := getClient_dials drv
      { slf with cs := [], size := slf.cs.length + j }
      (envs (slf.cs.length + j)) h d hmx rfl
      (by simp only [hmax]; omega) hconn hdb
    simp only [MongoDB.nthGet,
      before_dial drv slf envs m hmx hc hsize hmax hping hdial j (by omega)]
    refine ⟨⟨_, ho⟩, ?_, ?_⟩
    · simp [hl]
    · simp only [hp]
      push_cast
      rfl
  · obtain ⟨j, hj⟩ := Nat.exists_eq_add_of_le hkm
    have hb := before_dial drv slf envs m hmx hc hsize hmax hping hdial j (by omega)
    rw [← hj] at hb
    obtain ⟨ho, hl, hp⟩ := getClient_full drv (MongoDB.before drv slf envs m) (envs m)
      (by rw [hb]; exact hmx) (by rw [hb]) (by rw [hb]; simp [hmax, hj])
    simp only [MongoDB.nthGet]
    refine ⟨ho, hl, ?_⟩
    rw [hp, hb]
    simp [hj]

/-- Witness of C8: `k = 2` idle connections and `m = 3`. -/
theorem consecutive_getClient_calls_witness :
    (∀ i (hi : i < (pool0 [client0 1, client0 2] 2 2 3).cs.length),
      ((pool0 [client0 1, client0 2] 2 2 3).nthGet drvStrict (fun _ => envOk 7) i).out
        = .ret (some (pool0 [client0 1, client0 2] 2 2 3).cs[i], none) ∧
      Event.Connect
        ∉ ((pool0 [client0 1, client0 2] 2 2 3).nthGet drvStrict (fun _ => envOk 7) i).log ∧
      ((pool0 [client0 1, client0 2] 2 2 3).nthGet drvStrict (fun _ => envOk 7) i).pool.size
        = (pool0 [client0 1, client0 2] 2 2 3).cs.length) ∧
    (∀ i, (pool0 [client0 1, client0 2] 2 2 3).cs.length ≤ i → i < 3 →
      (∃ c, ((pool0 [client0 1, client0 2] 2 2 3).nthGet drvStrict (fun _ => envOk 7) i).out
        = .ret (some c, none)) ∧
      Event.Connect
        ∈ ((pool0 [client0 1, client0 2] 2 2 3).nthGet drvStrict (fun _ => envOk 7) i).log ∧
      ((pool0 [client0 1, client0 2] 2 2 3).nthGet drvStrict (fun _ => envOk 7) i).pool.size
        = i + 1) ∧
    (((pool0 [client0 1, client0 2] 2 2 3).nthGet drvStrict (fun _ => envOk 7) 3).out
        = .ret (none, some "mongoDB dbpooling is fulled") ∧
      ((pool0 [client0 1, client0 2] 2 2 3).nthGet drvStrict (fun _ => envOk 7) 3).log = [] ∧
      ((pool0 [client0 1, client0 2] 2 2 3).nthGet drvStrict (fun _ => envOk 7) 3).pool.size
        = (3 : Nat)) :=
  consecutive_getClient_calls drvStrict (pool0 [client0 1, client0 2] 2 2 3)
    (fun _ => envOk 7) 3 rfl (by decide) rfl rfl (by decide) (fun _ => rfl)
    (fun _ => ⟨7, 7, rfl, rfl⟩)

/-- The scenario min = 2, max = 3 call by call: two idle connections are handed
out after a ping each, the third call dials, the fourth is refused. -/
theorem scenario_min2_max3 :
    ((pool0 [client0 1, client0 2] 2 2 3).nthGet drvStrict (fun _ => envOk 7) 0).out
      = .ret (some (client0 1), none) ∧
    ((pool0 [client0 1, client0 2] 2 2 3).nthGet drvStrict (fun _ => envOk 7) 0).log
      = [Event.Ping (some 1)] ∧
    ((pool0 [client0 1, client0 2] 2 2 3).nthGet drvStrict (fun _ => envOk 7) 1).out
      = .ret (some (client0 2), none) ∧
    ((pool0 [client0 1, client0 2] 2 2 3).nthGet drvStrict (fun _ => envOk 7) 1).log
      = [Event.Ping (some 2)] ∧
    ((pool0 [client0 1, client0 2] 2 2 3).nthGet drvStrict (fun _ => envOk 7) 2).out
      = .ret (some (client0 7), none) ∧
    ((pool0 [client0 1, client0 2] 2 2 3).nthGet drvStrict (fun _ => envOk 7) 2).log
      = [Event.Connect] ∧
    ((pool0 [client0 1, client0 2] 2 2 3).nthGet drvStrict (fun _ => envOk 7) 2).pool.size = 3 ∧
    ((pool0 [client0 1, client0 2] 2 2 3).nthGet drvStrict (fun _ => envOk 7) 3).out
      = .ret (none, some "mongoDB dbpooling is fulled") ∧
    ((pool0 [client0 1, client0 2] 2 2 3).nthGet drvStrict (fun _ => envOk 7) 3).pool.size = 3 := by
  refine ⟨rfl, rfl, rfl, rfl, rfl, rfl, rfl, rfl, rfl⟩

/-! ## The facade operations -/

/-- The frame when `getClient` hands out a connection: the body runs and the
connection is appended to the idle list, whether the body returns or panics. -/
theorem borrow_of_client {α : Type} (drv : Driver) (slf : MongoDB) (env : Env)
    (onErr : String → α) (body : mongoClient → Reply α) (pool : MongoDB) (c : mongoClient)
    (log : List Event) (hg : slf.getClient drv env = ⟨pool, .ret (some c, none), log⟩)
    (hmx : pool.mx = false) :
    (slf.borrow drv env onErr body).pool = { pool with cs := pool.cs ++ [c] } ∧
    (slf.borrow drv env onErr body).out
      = (match body c with
        | .returns a => .ret a
        | .panics msg => .panic msg) := by
  obtain ⟨hp, ho⟩ := freeClient_pool pool c hmx
  rcases hf : pool.freeClient c with ⟨pool1, out1, log1⟩
  rw [hf] at hp ho
  simp only at hp ho
  subst hp ho
  unfold MongoDB.borrow
  rw [hg]
  simp only [hf]
  cases body c <;> exact ⟨rfl, rfl⟩

/-- The frame when `getClient` hands out nothing: its pool and its error, panic or
block are the operation's. -/
theorem borrow_of_no_client {α : Type} (drv : Driver) (slf : MongoDB) (env : Env)
    (onErr : String → α) (body : mongoClient → Reply α) :
    (∀ e, (slf.getClient drv env).out = .ret (none, some e) →
      (slf.borrow drv env onErr body).pool = (slf.getClient drv env).pool ∧
      (slf.borrow drv env onErr body).out = .ret (onErr e)) ∧
    (∀ msg, (slf.getClient drv env).out = .panic msg →
      (slf.borrow drv env onErr body).pool = (slf.getClient drv env).pool ∧
      (slf.borrow drv env onErr body).out = .panic msg) := by
  unfold MongoDB.borrow
  rcases hg : slf.getClient drv env with ⟨pool, out, log⟩
  constructor
  · rintro e ⟨⟩
    exact ⟨rfl, rfl⟩
  · rintro msg ⟨⟩
    exact ⟨rfl, rfl⟩

/-- The frame of the facade operations releases what it acquires. -/
theorem borrow_released {α : Type} (drv : Driver) (slf : MongoDB) (env : Env)
    (onErr : String → α) (body : mongoClient → Reply α) (hmx : slf.mx = false) :
    Released slf (slf.getClient drv env) (∀ c, ∃ a, body c = .returns a)
      (slf.borrow drv env onErr body) := by
  obtain ⟨_, hmx1, hcases⟩ := getClient_cases drv slf env
  obtain ⟨herr, hpanic⟩ := borrow_of_no_client drv slf env onErr body
  rw [hmx] at hmx1
  rcases hcases with ⟨c, hout, hpool⟩ | ⟨e, he, hpool⟩ | ⟨msg, hm, _⟩ | ⟨_, hlocked, _⟩
  · obtain ⟨hp, ho⟩ := borrow_of_client drv slf env onErr body _ c _
      (by rw [← hout]) hmx1
    have hsz : (slf.borrow drv env onErr body).pool.size
        - ((slf.borrow drv env onErr body).pool.cs.length : Int)
        = slf.size - slf.cs.length := by
      rw [hp]
      rcases hpool with ⟨hnil, _, hcs, hs⟩ | ⟨rest, hcons, hcs, hs⟩
      · simp only [hcs, hs, hnil, List.nil_append, List.length_singleton, List.length_nil]
        push_cast
        omega
      · simp [hcs, hs, hcons]
    refine ⟨?_, fun _ => ⟨hsz, fun hret => ?_⟩, ?_⟩
    · rw [ho]
      cases body c <;> simp
    · obtain ⟨a, ha⟩ := hret c
      exact ⟨a, by rw [ho, ha]⟩
    · intro client hcl
      rw [hout] at hcl
      simp only [Outcome.ret.injEq, Prod.mk.injEq, Option.some.injEq, and_true] at hcl
      rw [hp, ← hcl]
      simp
  · have hsz : (slf.getClient drv env).pool.size
        - ((slf.getClient drv env).pool.cs.length : Int) = slf.size - slf.cs.length := by
      rcases hpool with ⟨hcs, hs⟩ | ⟨head, rest, hcons, hcs, hs⟩
      · rw [hcs, hs]
      · simp only [hcs, hs, hcons, List.length_cons]
        push_cast
        omega
    obtain ⟨hp, ho⟩ := herr e he
    refine ⟨by rw [ho]; simp, fun _ => ⟨by rw [hp]; exact hsz, fun _ => ⟨_, ho⟩⟩, ?_⟩
    intro client hcl
    rw [he] at hcl
    simp at hcl
  · obtain ⟨hp, ho⟩ := hpanic msg hm
    refine ⟨by rw [ho]; simp, ?_, ?_⟩
    · rintro ⟨v, hv⟩
      rw [hm] at hv
      cases hv
    · intro client hcl
      rw [hm] at hcl
      cases hcl
  · rw [hmx] at hlocked
    cases hlocked

/-- The frame with a body that is one driver interaction `r`. -/
theorem released_const {α : Type} (drv : Driver) (slf : MongoDB) (env : Env)
    (onErr : String → α) (r : Reply α) (P : Prop) (hP : P → ∃ a, r = .returns a)
    (hmx : slf.mx = false) :
    Released slf (slf.getClient drv env) P (slf.borrow drv env onErr (fun _ => r)) := by
  obtain ⟨h1, h2, h3⟩ := borrow_released drv slf env onErr (fun _ => r) hmx
  exact ⟨h1, fun hv => ⟨(h2 hv).1, fun hp => (h2 hv).2 (fun _ => hP hp)⟩, h3⟩

/-- A mapped driver result returns when the driver call does. -/
theorem Reply.map_returns {γ α : Type} (f : γ → α) (q : Reply γ) (h : ∃ x, q = .returns x) :
    ∃ a, q.map f = .returns a := by
  obtain ⟨x, rfl⟩ := h
  exact ⟨f x, rfl⟩

/-- C7: each of the fifteen facade operations, called on a pool whose mutex is free
(no other caller), for every outcome of `getClient`, of the driver call and of
decoding (`q`, which may also be a panic), does not block; when `getClient`
returned (a connection or an error) the operation leaves `size - len(cs)` as
it was before the call and returns whenever the driver interaction returns;
and when `getClient` handed out a connection, that connection is in the idle
list at the end. -/
theorem facade_releases_connection (drv : Driver) (slf : MongoDB) (env : Env)
    (hmx : slf.mx = false) :
    (∀ q, Released slf (slf.getClient drv env) (∃ x, q = .returns x)
      (slf.InsertOne drv env q)) ∧
    (∀ q, Released slf (slf.getClient drv env) (∃ x, q = .returns x)
      (slf.InsertMany drv env q)) ∧
    (∀ q, Released slf (slf.getClient drv env) (∃ x, q = .returns x)
      (slf.FindOne drv env q)) ∧
    (∀ q, Released slf (slf.getClient drv env) (∃ x, q = .returns x)
      (slf.Find drv env q)) ∧
    (∀ q, Released slf (slf.getClient drv env) (∃ x, q = .returns x)
      (slf.UpdateOne drv env q)) ∧
    (∀ q, Released slf (slf.getClient drv env) (∃ x, q = .returns x)
      (slf.UpdateMany drv env q)) ∧
    (∀ q, Released slf (slf.getClient drv env) (∃ x, q = .returns x)
      (slf.ReplaceOne drv env q)) ∧
    (∀ q, Released slf (slf.getClient drv env) (∃ x, q = .returns x)
      (slf.DeleteOne drv env q)) ∧
    (∀ q, Released slf (slf.getClient drv env) (∃ x, q = .returns x)
      (slf.DeleteMany drv env q)) ∧
    (∀ q, Released slf (slf.getClient drv env) (∃ x, q = .returns x)
      (slf.FindOneAndDelete drv env q)) ∧
    (∀ q, Released slf (slf.getClient drv env) (∃ x, q = .returns x)
      (slf.FindOneAndUpdate drv env q)) ∧
    (∀ q, Released slf (slf.getClient drv env) (∃ x, q = .returns x)
      (slf.FindOneAndReplace drv env q)) ∧
    (∀ q, Released slf (slf.getClient drv env) (∃ x, q = .returns x)
      (slf.Distinct drv env q)) ∧
    (∀ q, Released slf (slf.getClient drv env) (∃ x, q = .returns x)
      (slf.Drop drv env q)) ∧
    (∀ q, Released slf (slf.getClient drv env) (∃ x, q = .returns x)
      (slf.CountDocuments drv env q)) := by
  refine ⟨?_, ?_, ?_, ?_, ?_, ?_, ?_, ?_, ?_, ?_, ?_, ?_, ?_, ?_, ?_⟩ <;> intro q
  · exact released_const drv slf env _ _ _ (Reply.map_returns _ q) hmx
  · exact released_const drv slf env _ _ _ (Reply.map_returns _ q) hmx
  · exact released_const drv slf env _ _ _ (Reply.map_returns _ q) hmx
  · exact released_const drv slf env _ _ _ (Reply.map_returns _ q) hmx
  · exact released_const drv slf env _ _ _ (Reply.map_returns _ q) hmx
  · exact released_const drv slf env _ _ _ (Reply.map_returns _ q) hmx
  · exact released_const drv slf env _ _ _ (Reply.map_returns _ q) hmx
  · exact released_const drv slf env _ _ _ (Reply.map_returns _ q) hmx
  · exact released_const drv slf env _ _ _ (Reply.map_returns _ q) hmx
  · exact released_const drv slf env _ _ _ (Reply.map_returns _ q) hmx
  · exact released_const drv slf env _ _ _ (Reply.map_returns _ q) hmx
  · exact released_const drv slf env _ _ _ (Reply.map_returns _ q) hmx
  · exact released_const drv slf env _ _ _ (Reply.map_returns _ q) hmx
  · exact released_const drv slf env _ q _ (fun h => h) hmx
  · exact released_const drv slf env _ q _ (fun h => h) hmx

/-- Witness of C7: `InsertOne` on a pool with one idle connection whose ping
succeeds, and `Find` on an empty pool that has to dial, with a decode error on
the second document. -/
theorem facade_releases_connection_witness :
    Released (pool0 [client0 1] 1 0 2) ((pool0 [client0 1] 1 0 2).getClient drvStrict (envOk 7))
      (∃ x, Reply.returns (Answer.ok 42) = .returns x)
      ((pool0 [client0 1] 1 0 2).InsertOne drvStrict (envOk 7) (.returns (.ok 42))) ∧
    Released (pool0 [] 0 0 2) ((pool0 [] 0 0 2).getClient drvStrict (envOk 7))
      (∃ x, Reply.returns (Answer.ok [Answer.ok 1, Answer.err "bad document"]) = .returns x)
      ((pool0 [] 0 0 2).Find drvStrict (envOk 7)
        (.returns (.ok [.ok 1, .err "bad document"]))) :=
  ⟨(facade_releases_connection drvStrict (pool0 [client0 1] 1 0 2) (envOk 7) rfl).1 _,
   (facade_releases_connection drvStrict (pool0 [] 0 0 2) (envOk 7) rfl).2.2.2.1 _⟩

/-- The two calls of the witness of C7, evaluated: the connection is back in the
idle list and the results are the driver's. -/
theorem facade_examples :
    ((pool0 [client0 1] 1 0 2).InsertOne drvStrict (envOk 7) (.returns (.ok 42))).out
      = .ret (some 42, none) ∧
    ((pool0 [client0 1] 1 0 2).InsertOne drvStrict (envOk 7) (.returns (.ok 42))).pool
      = pool0 [client0 1] 1 0 2 ∧
    ((pool0 [] 0 0 2).Find drvStrict (envOk 7)
        (.returns (.ok [.ok 1, .err "bad document"]))).out
      = .ret ([], some "bad document") ∧
    ((pool0 [] 0 0 2).Find drvStrict (envOk 7)
        (.returns (.ok [.ok 1, .err "bad document"]))).pool
      = pool0 [client0 7] 1 0 2 ∧
    ((pool0 [client0 1] 1 0 2).Drop drvStrict envPingFails (.returns none)).out
      = .ret (some "server selection timeout") ∧
    ((pool0 [client0 1] 1 0 2).Drop drvStrict envPingFails (.returns none)).pool
      = pool0 [] 0 0 2 ∧
    ((pool0 [client0 1] 1 0 2).Drop drvStrict (envOk 7) (.panics "boom")).out
      = .panic "boom" ∧
    ((pool0 [client0 1] 1 0 2).Drop drvStrict (envOk 7) (.panics "boom")).pool
      = pool0 [client0 1] 1 0 2 := by
  refine ⟨rfl, rfl, rfl, rfl, rfl, rfl, rfl, rfl⟩

/-! ## How general the failures of `Init` and `Close` are -/

/-- `getClient` never returns a nil connection together with a nil error. -/
theorem getClient_never_nil_nil (drv : Driver) (slf : MongoDB) (env : Env) :
    (slf.getClient drv env).out ≠ .ret (none, none) := by
  intro h
  obtain ⟨_, _, hcases⟩ := getClient_cases drv slf env
  rw [h] at hcases
  simp at hcases

/-- Whenever `MinClient ≥ 1` and the first dial succeeds, `Init` panics in its
first iteration and leaves the idle list and `size` as they were. -/
theorem Init_panics_on_first_successful_dial (AssertEmpty : Bool → String → Reply Unit)
    (slf : MongoDB) (envs : Nat → Env) (h d : Nat) (hmx : slf.mx = false)
    (hmin : 0 < slf.MinClient) (hconn : (envs 0).connect = .ok h)
    (hdb : (envs 0).database = some d) :
    (slf.Init AssertEmpty envs).out = .panic nilDeref ∧
    (slf.Init AssertEmpty envs).pool = slf := by
  obtain ⟨n, hn⟩ : ∃ n, slf.MinClient.toNat = n + 1 :=
    ⟨slf.MinClient.toNat - 1, by omega⟩
  cases slf
  simp only at hmx hn
  subst hmx
  simp [MongoDB.Init, hn, MongoDB.InitLoop, MongoDB.dial, mongoClient.connect,
    mongoClient.zero, hconn, hdb, MongoDB.lock, MongoDB.unlock]

/-- With `MinClient ≤ 0` there is nothing to dial and `Init` returns nil. -/
theorem Init_returns_when_nothing_to_dial (AssertEmpty : Bool → String → Reply Unit)
    (slf : MongoDB) (envs : Nat → Env) (hmx : slf.mx = false) (hmin : slf.MinClient ≤ 0) :
    (slf.Init AssertEmpty envs).out = .ret none ∧
    (slf.Init AssertEmpty envs).pool = slf := by
  have hn : slf.MinClient.toNat = 0 := by omega
  cases slf
  simp only at hmx hn
  subst hmx
  simp [MongoDB.Init, hn, MongoDB.InitLoop, MongoDB.lock, MongoDB.unlock]

/-- An iteration of the loop of `Close` that starts with the mutex held blocks. -/
theorem CloseLoop_held (drv : Driver) (fuel : Nat) (slf : MongoDB) (log : List Event)
    (hmx : slf.mx = true) (r : Res Unit)
    (h : MongoDB.CloseLoop drv fuel slf log = some r) : r.out = .blocked := by
  cases fuel with
  | zero => simp [MongoDB.CloseLoop] at h
  | succ fuel =>
    simp only [MongoDB.CloseLoop, hmx, if_true, Option.some.injEq] at h
    rw [← h]

/-- From any pool with `size ≠ 0` the loop of `Close` does not return, whatever
the fuel: it sleeps and tries again while nothing is idle, and once it has
closed the idle connections it blocks on the mutex it still holds (or it
panicked in a `close`). -/
theorem CloseLoop_never_returns (drv : Driver) (fuel : Nat) :
    ∀ (slf : MongoDB) (log : List Event) (r : Res Unit), slf.size ≠ 0 →
      MongoDB.CloseLoop drv fuel slf log = some r → r.out ≠ .ret () := by
  induction fuel with
  | zero =>
    intro slf log r _ h
    simp [MongoDB.CloseLoop] at h
  | succ fuel ih =>
    intro slf log r hsize h
    cases hmx : slf.mx with
    | true =>
      rw [CloseLoop_held drv (fuel + 1) slf log hmx r h]
      simp
    | false =>
      simp only [MongoDB.CloseLoop, hmx, MongoDB.lock, hsize, if_false,
        Bool.false_eq_true] at h
      by_cases hn : slf.cs.length = 0
      · simp only [hn, if_true] at h
        exact ih _ _ r (by simpa [MongoDB.unlock] using hsize) h
      · simp only [hn, if_false] at h
        rcases hc : closeAll drv slf.cs with ⟨vs, p, ev⟩
        rw [hc] at h
        cases p with
        | some msg =>
          simp only [Option.some.injEq] at h
          rw [← h]
          simp
        | none =>
          simp only at h
          rw [CloseLoop_held drv fuel _ _ rfl r h]
          simp

/-- With `size = 0` and a free mutex, `Close` returns at once and touches nothing. -/
theorem Close_returns_when_empty (drv : Driver) (fuel : Nat) (slf : MongoDB)
    (hmx : slf.mx = false) (hsize : slf.size = 0) :
    ∃ r, slf.Close drv (fuel + 1) = some r ∧ r.out = .ret () ∧ r.pool = slf ∧ r.log = [] := by
  cases slf
  simp only at hmx hsize
  subst hmx hsize
  simp [MongoDB.Close, MongoDB.CloseLoop, MongoDB.lock, MongoDB.unlock]

end MagicDB
